import Mathlib

/-!
Verification development for the Myrient Search App repository
(`src/crawler.py`, `src/downloader.py`).

The Python code is shallowly embedded over `List Char` strings.  Python string
operations (`lower`, `title`, `strip`, `split`, `rsplit`, `in`, `re.sub`,
`re.findall`, `urllib.parse.unquote`) are modelled character by character for
the ASCII range, which covers every string the repository's own tables and the
claims use.  Fallible Python code (list indexing that can raise `IndexError`)
is embedded with `Except`; the SQLite store is a list of rows; network fetches
and SQLite write failures are oracles passed in as parameters.
-/

namespace Myrient

/-- Strings are modelled as lists of characters. -/
abbrev Str := List Char

/-- ASCII lower-casing of one character (Python `str.lower` restricted to ASCII). -/
def lowerChar (c : Char) : Char :=
  if 'A' ≤ c ∧ c ≤ 'Z' then Char.ofNat (c.toNat + 32) else c

/-- ASCII upper-casing of one character (Python `str.upper` restricted to ASCII). -/
def upperChar (c : Char) : Char :=
  if 'a' ≤ c ∧ c ≤ 'z' then Char.ofNat (c.toNat - 32) else c

/-- Python `str.lower` (ASCII range). -/
def pyLower (s : Str) : Str := s.map lowerChar

/-- Python `str.upper` (ASCII range). -/
def pyUpper (s : Str) : Str := s.map upperChar

/-- ASCII letter test (Python `str.isalpha` restricted to ASCII). -/
def isAlphaA (c : Char) : Bool :=
  ('a' ≤ c ∧ c ≤ 'z') ∨ ('A' ≤ c ∧ c ≤ 'Z')

/-- ASCII digit test. -/
def isDigitA (c : Char) : Bool := '0' ≤ c ∧ c ≤ '9'

/-- ASCII alphanumeric test. -/
def isAlnumA (c : Char) : Bool := isAlphaA c || isDigitA c

/-- Python whitespace set used by `str.split()` / `str.strip()` (ASCII range). -/
def isWs (c : Char) : Bool :=
  c = ' ' ∨ c = '\t' ∨ c = '\n' ∨ c = '\x0d' ∨ c = '\x0b' ∨ c = '\x0c'

/-- Python `str.title` (ASCII range): a letter is upper-cased when the previous
character is not a letter and lower-cased otherwise.  `go` carries the
"previous character was cased" flag. -/
def pyTitleGo (prevCased : Bool) : Str → Str
  | [] => []
  | c :: rest =>
    if isAlphaA c then
      (if prevCased then lowerChar c else upperChar c) :: pyTitleGo true rest
    else c :: pyTitleGo false rest

/-- Python `str.title` (ASCII range). -/
def pyTitle (s : Str) : Str := pyTitleGo false s

/-- Boolean list-prefix test. -/
def isPrefixB : Str → Str → Bool
  | [], _ => true
  | _ :: _, [] => false
  | a :: as, b :: bs => a = b && isPrefixB as bs

/-- Python `in` on strings: contiguous-substring test (the empty pattern is a
substring of everything, as in Python). -/
def isSubstr (pat : Str) : Str → Bool
  | [] => isPrefixB pat []
  | c :: rest => isPrefixB pat (c :: rest) || isSubstr pat rest

/-- Python `str.endswith`. -/
def endsWithB (suffix : Str) (s : Str) : Bool :=
  isPrefixB suffix.reverse s.reverse

/-- Drop leading characters satisfying `p` and trailing characters satisfying
`p` (shared engine for Python `strip` variants). -/
def stripBy (p : Char → Bool) (s : Str) : Str :=
  ((s.dropWhile p).reverse.dropWhile p).reverse

/-- Python `str.strip()` (whitespace). -/
def pyStripWs (s : Str) : Str := stripBy isWs s

/-- Python `str.strip("/")`. -/
def stripSlash (s : Str) : Str := stripBy (· = '/') s

/-- Python `str.lstrip("/")`. -/
def lstripSlash (s : Str) : Str := s.dropWhile (· = '/')

/-- Python `str.rstrip("/")`. -/
def rstripSlash (s : Str) : Str := (s.reverse.dropWhile (· = '/')).reverse

/-- Length bound used by the termination proofs below. -/
theorem length_dropWhile_le (p : α → Bool) (l : List α) :
    (l.dropWhile p).length ≤ l.length := by
  induction l with
  | nil => simp [List.dropWhile]
  | cons a l ih =>
    simp only [List.dropWhile]
    split
    · exact Nat.le_trans ih (Nat.le_succ _)
    · exact Nat.le_refl _

/-- Worker for `splitOnSep`; `acc` holds the current chunk reversed.  The
`fuel` argument makes the recursion structural so that proofs can evaluate
the function inside the kernel; every call site supplies `s.length + 1`,
which is always sufficient (each step consumes fuel 1 and at least one
character). -/
def splitOnSepGo (sep : Str) : Nat → Str → Str → List Str
  | 0, acc, s => [acc.reverse ++ s]
  | fuel + 1, acc, s =>
    match s with
    | [] => [acc.reverse]
    | c :: rest =>
      if isPrefixB sep (c :: rest) ∧ sep ≠ [] then
        acc.reverse :: splitOnSepGo sep fuel [] (rest.drop (sep.length - 1))
      else
        splitOnSepGo sep fuel (c :: acc) rest

/-- Python `str.split(sep)` for a non-empty separator (keeps empty chunks,
always returns a non-empty list). -/
def splitOnSep (sep s : Str) : List Str := splitOnSepGo sep (s.length + 1) [] s

/-- Worker for `pySplitWs`, fuelled like `splitOnSepGo`. -/
def pySplitWsGo : Nat → Str → List Str
  | 0, s => if s = [] then [] else [s]
  | fuel + 1, s =>
    match s with
    | [] => []
    | c :: rest =>
      if isWs c then pySplitWsGo fuel rest
      else (c :: rest.takeWhile (fun d => !isWs d)) ::
        pySplitWsGo fuel (rest.dropWhile (fun d => !isWs d))

/-- Python `str.split()` (no argument): split on whitespace runs, dropping
empty chunks. -/
def pySplitWs (s : Str) : List Str := pySplitWsGo (s.length + 1) s

/-- Hexadecimal value of one character, if any. -/
def hexVal (c : Char) : Option Nat :=
  if isDigitA c then some (c.toNat - '0'.toNat)
  else if 'a' ≤ c ∧ c ≤ 'f' then some (c.toNat - 'a'.toNat + 10)
  else if 'A' ≤ c ∧ c ≤ 'F' then some (c.toNat - 'A'.toNat + 10)
  else none

/-- Python `urllib.parse.unquote`, one byte per `%XX` escape (multi-byte UTF-8
recombination is not modelled; every input in this development is ASCII).
Invalid escapes are left verbatim, as in Python. -/
def pyUnquote : Str → Str
  | [] => []
  | '%' :: a :: b :: rest =>
    match hexVal a, hexVal b with
    | some x, some y => Char.ofNat (16 * x + y) :: pyUnquote rest
    | _, _ => '%' :: pyUnquote (a :: b :: rest)
  | c :: rest => c :: pyUnquote rest

/-- Worker for `replaceAllCI`, fuelled to keep the recursion structural. -/
def replaceAllCIGo (pat repl : Str) : Nat → Str → Str
  | 0, s => s
  | fuel + 1, s =>
    match s with
    | [] => []
    | c :: rest =>
      if pat ≠ [] ∧ pyLower ((c :: rest).take pat.length) = pyLower pat then
        repl ++ replaceAllCIGo pat repl fuel ((c :: rest).drop pat.length)
      else
        c :: replaceAllCIGo pat repl fuel rest

/-- `re.sub(re.escape(pat), repl, s, flags=IGNORECASE)`: replace every
(left-to-right, non-overlapping) case-insensitive occurrence of the literal
`pat`.  The crawler only calls this with non-empty patterns. -/
def replaceAllCI (pat repl : Str) (s : Str) : Str :=
  replaceAllCIGo pat repl (s.length + 1) s

/-- Worker for `findParens`, fuelled to keep the recursion structural. -/
def findParensGo : Nat → Str → List Str
  | 0, _ => []
  | fuel + 1, s =>
    match s with
    | [] => []
    | c :: rest =>
      if c = '(' then
        match splitOnSep ([')']) rest with
        | [] => []
        | _ :: [] => findParensGo fuel rest
        | inside :: _ :: _ =>
          if inside = [] then findParensGo fuel rest
          else inside :: findParensGo fuel (rest.drop (inside.length + 1))
      else findParensGo fuel rest

/-- `re.findall(r"\(([^)]+)\)", s)`: the non-empty parenthesised groups, in
scan order, matching Python's regex engine (an empty `()` yields no match and
scanning resumes one character later). -/
def findParens (s : Str) : List Str := findParensGo (s.length + 1) s

/-- Worker for `removeParenGroups`, fuelled to keep the recursion structural. -/
def removeParenGroupsGo : Nat → Str → Str
  | 0, s => s
  | fuel + 1, s =>
    match s with
    | [] => []
    | c :: rest =>
      match (c :: rest).dropWhile isWs with
      | '(' :: inner =>
        match splitOnSep ([')']) inner with
        | [] => c :: removeParenGroupsGo fuel rest
        | _ :: [] => c :: removeParenGroupsGo fuel rest
        | inside :: _ :: _ =>
          removeParenGroupsGo fuel (inner.drop (inside.length + 1))
      | _ => c :: removeParenGroupsGo fuel rest

/-- `re.sub(r"\s*\([^)]*\)", "", s)`: delete every whitespace run followed by
a (possibly empty) parenthesised group; scanning resumes after each deleted
match, unmatched text is copied. -/
def removeParenGroups (s : Str) : Str := removeParenGroupsGo (s.length + 1) s

/-- Digits to a natural number (`int` on a digit string). -/
def digitsToNat (s : Str) : Nat :=
  s.foldl (fun acc c => 10 * acc + (c.toNat - '0'.toNat)) 0

/-- `", ".join`-style list joining uses `List.intercalate`. -/
def joinWith (sep : Str) (xs : List Str) : Str := List.intercalate sep xs

/-! ## Static configuration tables (crawler.py lines 54-181) -/

/-- `ignored_base_folders` before lower-casing (the commented-out entries of the
source are omitted, exactly as Python sees the list). -/
def ignoredBaseFoldersRaw : List String :=
  ["Miscellaneous", "TOSEC-PIX", "96x65pixels", "EBZero", "Unknown",
   "aberusugi", "aitus95", "archiver_2020", "bingbong294", "bluemaxima",
   "chadmaster", "cmpltromsets", "kodi_amp_spmc_canada", "lollo_220", "md_",
   "mdashk", "pixelspoil", "retro_game_champion", "romhacking_net",
   "rompacker", "rvt-r", "sketch_the_cow", "storage_manager", "superbio",
   "teamgt19", "the_last_collector", "yahweasel"]

/-- `ignored_base_folders = [folder.lower() for folder in ignored_base_folders]`. -/
def ignored_base_folders : List Str :=
  ignoredBaseFoldersRaw.map (fun f => pyLower f.data)

/-- `ignored_folders` (already lower-case in the source; the `.lower()` pass is
applied all the same). -/
def ignoredFoldersRaw : List String :=
  ["audio cd", "bd-video", "dvd-video", "video cd", "disc keys", "(themes)",
   "(updates)", "firmware", "demos", "docs", "gdi files", "applications",
   "operating systems", "various", "magaz", "educational", "samplers",
   "coverdiscs", "(music)", "diskmags", "books", "bios", "demo",
   "(movie only)", "documents", "video game osts", "video game scans",
   "source code", "playstation gameshark updates", "non-redump", "promo",
   "amiibo", "nintendo sdks", "ultimate codes", "action replay",
   "unlimited codes", "cheatcodes", "cheat code", "cheats", "cheat master",
   "cheat disc"]

/-- `ignored_folders = [folder.lower() for folder in ignored_folders]`. -/
def ignored_folders : List Str :=
  ignoredFoldersRaw.map (fun f => pyLower f.data)

/-- `platform_aliases` in dict insertion order (Python dicts preserve it).  The
two `IBM PC Compatible...` keys are mixed-case in the source and are kept
verbatim. -/
def platformAliasesRaw : List (String × String) :=
  [("apple 1", "Apple I"),
   ("apple i", "Apple I"),
   ("apple ii", "Apple II"),
   ("apple ii plus", "Apple II Plus"),
   ("apple iie", "Apple IIe"),
   ("apple iigs", "Apple IIGS"),
   ("vm labs nuon", "VM Labs NUON"),
   ("nec pc engine cd & turbografx", "NEC PC Engine CD & TurboGrafx-16"),
   ("nec pc engine cd + turbografx", "NEC PC Engine CD & TurboGrafx-16"),
   ("nec pc-engine & turbografx-16", "NEC PC Engine & TurboGrafx-16"),
   ("nec pc-engine cd & turbografx-16", "NEC PC Engine CD & TurboGrafx-16"),
   ("snk neo geo", "SNK Neo Geo"),
   ("snk neo-geo", "SNK Neo Geo"),
   ("snk neo-geo cd", "SNK Neo Geo CD"),
   ("snk neogeo pocket", "SNK Neo Geo Pocket"),
   ("snk neogeo pocket color", "SNK Neo Geo Pocket Color"),
   ("nintendo famicom & entertainment system", "Nintendo Entertainment System"),
   ("nintendo super famicom & entertainment system", "Super Nintendo Entertainment System"),
   ("nintendo super nintendo entertainment system", "Super Nintendo Entertainment System"),
   ("nintendo super entertainment system", "Super Nintendo Entertainment System"),
   ("nintendo famicom disk system", "Nintendo Famicom Disk System"),
   ("nintendo wii [zstd-19-128k]", "Nintendo Wii"),
   ("nintendo gamecube [zstd-19-128k]", "Nintendo Gamecube"),
   ("ibm pc compatible", "IBM PC Compatible"),
   ("ibm pc and compatibles", "IBM PC Compatible"),
   ("IBM PC Compatible SBI Subchannels", "IBM PC Compatible"),
   ("IBM PC Compatibles", "IBM PC Compatible")]

/-- `platform_aliases` as character lists. -/
def platform_aliases : List (Str × Str) :=
  platformAliasesRaw.map (fun p => (p.1.data, p.2.data))

/-! ## Platform normalizer (crawler.py `normalize_platform_name`) -/

/-- The consecutive-duplicate-word collapse of `normalize_platform_name`:
`prev` carries Python's `prev_word` (the previous word lower-cased). -/
def collapseDupWords (prev : Option Str) : List Str → List Str
  | [] => []
  | w :: ws =>
    let lw := pyLower w
    if prev = some lw then collapseDupWords (some lw) ws
    else w :: collapseDupWords (some lw) ws

/-- `normalize_platform_name(platform)` (crawler.py lines 458-485): first
matching alias replaced everywhere case-insensitively, text truncated at the
first `(`, split on `" - "` with parts stripped, consecutive case-insensitive
duplicate words collapsed, tokens equal to an `ignored_folders` entry dropped,
the rest joined, stripped and title-cased. -/
def normalize_platform_name (platform : Str) : Str :=
  let lower_platform := pyLower platform
  let platform :=
    match platform_aliases.find? (fun p => isSubstr p.1 lower_platform) with
    | some (al, canonical) => replaceAllCI al canonical platform
    | none => platform
  let afterParen := (splitOnSep (['(']) platform).headD []
  let parts := (splitOnSep ([' ', '-', ' ']) afterParen).map pyStripWs
  let tokens := pySplitWs (joinWith ([' ']) parts)
  let tokens := collapseDupWords none tokens
  let cleaned_tokens := tokens.filter (fun t => ¬ pyLower t ∈ ignored_folders)
  pyTitle (pyStripWs (joinWith ([' ']) cleaned_tokens))

/-! ## Data model -/

/-- A metadata record returned by the extractor (the dict built at the end of
`parse_metadata_from_path`). -/
structure Meta where
  title : Str
  platform : Str
  collection : Str
  region : Option Str
  language : Option Str
  version : Option Str
  url : Str
deriving DecidableEq

/-- A row of the SQLite `files` table.  `size` holds the value Python binds
into the `size` column: the listing's size-cell text (or NULL).  SQLite's
INTEGER type affinity (which would convert a purely numeric string) is not
modelled; the listing cells in scope are human-readable strings such as
`"14.3 MiB"`, which SQLite stores as TEXT unchanged. -/
structure Row where
  url : Str
  title : Str
  platform : Str
  collection : Str
  region : Option Str
  language : Option Str
  version : Option Str
  size : Option Str
  last_modified : Option Str
deriving DecidableEq

/-- One entry of a directory listing as produced by `fetch_folder_listing`
(the `{name, size, last_modified}` dicts; `size`/`last_modified` are the text
of the HTML cells, or None when the cell is missing). -/
structure Entry where
  name : Str
  size : Option Str
  last_modified : Option Str
deriving DecidableEq

/-- Python exceptions relevant to the embedded code paths. -/
inductive PyExn where
  | indexError
  | sqliteError
  | connectionError
  | timeoutError
deriving DecidableEq

/-- Errors the listing-fetch collaborator can raise.  Per the fetch contract
(spec §6) it "raises on network/timeout failure"; the two kinds the crawler's
`except (ConnectionError, TimeoutError)` clause names are modelled. -/
inductive FetchErr where
  | conn
  | timeout
deriving DecidableEq

/-! ## Metadata extractor (crawler.py `parse_metadata_from_path` and helpers) -/

/-- `_extract_region`: first parenthesised group whose lower-case form is in
the fixed region set, returned upper-cased. -/
def regionSet : List Str :=
  (["us", "eu", "jp", "pal", "europe", "usa", "japan", "ntsc", "china",
    "korea"] : List String).map String.data

/-- `_extract_region(meta_parts)`. -/
def extractRegion (meta_parts : List Str) : Option Str :=
  match meta_parts.find? (fun p => pyLower p ∈ regionSet) with
  | some p => some (pyUpper p)
  | none => none

/-- The `lang_map` table of `_extract_languages`. -/
def langMap : List (Str × Str) :=
  ([("en", "EN"), ("english", "EN"), ("fr", "FR"), ("french", "FR"),
    ("de", "DE"), ("german", "DE"), ("es", "ES"), ("italian", "IT"),
    ("it", "IT"), ("jp", "JP"), ("japanese", "JP")] : List (String × String)).map
    (fun p => (p.1.data, p.2.data))

/-- `^[a-z]{2}(,[a-z]{2})*$`: comma-separated two-letter lower-case groups.
(The regex `$` also accepting a final newline is not modelled; no input in
scope contains a newline.) -/
def isLangCodeList (s : Str) : Bool :=
  let groups := splitOnSep ([',']) s
  groups.all (fun g => g.length = 2 ∧ g.all (fun c => 'a' ≤ c ∧ c ≤ 'z'))

/-- `_extract_languages(meta_parts)`. -/
def extractLanguages (meta_parts : List Str) : List Str :=
  meta_parts.foldl
    (fun acc p =>
      let pLow := (pyLower p).filter (· ≠ ' ')
      if isLangCodeList pLow then
        acc ++ (splitOnSep ([',']) pLow).map (fun g => pyUpper (pyStripWs g))
      else
        match langMap.find? (fun q => q.1 = pLow) with
        | some q => acc ++ [q.2]
        | none => acc)
    []

/-- `_extract_version(meta_parts, parts, platform_raw)`. -/
def extractVersion (meta_parts : List Str) (parts : List Str)
    (platform_raw : Str) : Option Str :=
  let versions : List Str := (["decrypted", "encrypted"] : List String).map String.data
  match meta_parts.find? (fun p => pyLower p ∈ versions) with
  | some p => some (pyTitle p)
  | none =>
    let parent_folders := parts.dropLast.map pyLower
    match versions.find? (fun vf => parent_folders.any (fun pf => isSubstr vf pf)) with
    | some vf => some (pyTitle vf)
    | none =>
      let version_keywords : List Str :=
        (["nkit rvz", "nkit", "rvz"] : List String).map String.data
      let platform_lower := pyLower platform_raw
      match version_keywords.find? (fun vk => isSubstr vk platform_lower) with
      | some vk => some (pyTitle vk)
      | none => none

/-- `filename.rsplit(".", 1)[0]`: everything before the last dot. -/
def dropLastExt (filename : Str) : Str :=
  (((filename.reverse.dropWhile (· ≠ '.')).drop 1)).reverse

/-- The platform-raw derivation of `parse_metadata_from_path` (lines 519-524),
including the `IndexError` Python raises when `parts` is too short. -/
def platformRawOf (url_path : Str) (parts : List Str) : Except PyExn Str :=
  if isSubstr ("tosec".data) (pyLower url_path) ∧
      isSubstr ("games".data) (pyLower url_path) then
    match parts[1]?, parts[2]? with
    | some a, some b => .ok (a ++ (" - ".data) ++ b)
    | _, _ => .error .indexError
  else if isSubstr ("who_lee".data) (pyUnquote (pyLower url_path)) then
    match parts[3]? with
    | some a => .ok a
    | none => .error .indexError
  else
    match parts[1]? with
    | some a => .ok a
    | none => .error .indexError

/-- The language dedup of `parse_metadata_from_path` (first occurrence kept,
tested on the pre-`upper` value exactly as the `seen_langs` set does). -/
def dedupGo (seen : List Str) : List Str → List Str
  | [] => []
  | x :: xs => if x ∈ seen then dedupGo seen xs else x :: dedupGo (x :: seen) xs

/-- `parse_metadata_from_path(url_path, base_url)` (crawler.py lines 512-565).
Returns `.ok none` for "not a game file", `.ok (some meta)` for a parsed
record, and `.error .indexError` where Python raises `IndexError`. -/
def parse_metadata_from_path (url_path base_url : Str) :
    Except PyExn (Option Meta) :=
  if ¬ endsWithB (".zip".data) url_path then .ok none
  else
    let parts := splitOnSep (['/']) (stripSlash url_path)
    match platformRawOf url_path parts, parts[0]?, parts.getLast? with
    | .ok platform_raw0, some p0, some plast =>
      let collection := pyUnquote p0
      let platform_raw := pyUnquote platform_raw0
      let filename := pyUnquote plast
      let title := if '.' ∈ filename then dropLastExt filename else filename
      let meta_parts := findParens title
      let region := extractRegion meta_parts
      let languages0 := extractLanguages meta_parts
      let version := extractVersion meta_parts parts platform_raw
      let platform := normalize_platform_name platform_raw
      let languages := (dedupGo [] languages0).map pyUpper
      let title_clean := pyStripWs (removeParenGroups title)
      .ok (some
        { title := title_clean
          platform := platform
          collection := collection
          region := region
          language := if languages = [] then none else some (joinWith ([',']) languages)
          version := version
          url := base_url ++ lstripSlash url_path })
    | .error e, _, _ => .error e
    | .ok _, none, _ => .error .indexError
    | .ok _, some _, none => .error .indexError

/-! ## Index store -/

/-- `INSERT OR REPLACE INTO files` keyed by the `url` PRIMARY KEY: the
conflicting row (if any) is deleted and the new row inserted. -/
def upsert (r : Row) (db : List Row) : List Row :=
  db.filter (fun x => x.url ≠ r.url) ++ [r]

/-! ## Crawl scheduler (crawler.py `crawl_and_index` and workers)

The thread pool is modelled by a sequential schedule: `_get_batch` and the
`as_completed` loop of `_process_batch` run on the main thread in the source
(worker threads only fetch and write rows), and results are consumed here in
submission order — one admissible schedule of the pool.  The `fetch` oracle
stands for `fetch_folder_listing` (network listing fetch), `sqliteOk` for
whether a given `INSERT OR REPLACE` statement succeeds (failures are
swallowed by `contextlib.suppress(sqlite3.Error)`). -/

/-- The folder URL built at the top of `_process_folder`. -/
def folderUrlOf (base_url folder : Str) : Str :=
  let u := rstripSlash base_url ++ ['/'] ++ lstripSlash folder
  if endsWithB (['/']) u then u else u ++ ['/']

/-- The per-entry loop body of `_process_folder`: accumulates discovered
sub-folders and upserts parsed records; a `parse_metadata_from_path`
exception propagates (it is raised outside any try in the source). -/
def processEntries (sqliteOk : Str → Bool) (base_url folder : Str) :
    List Entry → List Str → List Row → Except PyExn (List Str × List Row)
  | [], folders, db => .ok (folders, db)
  | e :: rest, folders, db =>
    let name := e.name
    let decoded := pyUnquote (pyLower (stripSlash name))
    if decoded ∈ ignored_base_folders then
      processEntries sqliteOk base_url folder rest folders db
    else if endsWithB (['/']) name ∧ ¬ decoded ∈ ignored_base_folders then
      processEntries sqliteOk base_url folder rest (folders ++ [folder ++ name]) db
    else
      match parse_metadata_from_path (folder ++ name) base_url with
      | .error exn => .error exn
      | .ok none => processEntries sqliteOk base_url folder rest folders db
      | .ok (some meta0) =>
        let meta := { meta0 with platform := normalize_platform_name meta0.platform }
        let row : Row :=
          { url := meta.url, title := meta.title, platform := meta.platform
            collection := meta.collection, region := meta.region
            language := meta.language, version := meta.version
            size := e.size, last_modified := e.last_modified }
        let db' := if sqliteOk meta.url then upsert row db else db
        processEntries sqliteOk base_url folder rest folders db'

/-- `_process_folder(folder, ctx)`: fetches the folder listing — swallowing
`ConnectionError`/`TimeoutError` into an empty result — then runs the entry
loop.  The per-folder `commit` means an escaping exception discards the
folder's uncommitted writes, which the `Except` result models. -/
def processFolder (fetch : Str → Except FetchErr (List Entry))
    (sqliteOk : Str → Bool) (base_url folder : Str) (db : List Row) :
    Except PyExn (List Str × List Row) :=
  match fetch (folderUrlOf base_url folder) with
  | .error .conn => .ok ([], db)
  | .error .timeout => .ok ([], db)
  | .ok entries => processEntries sqliteOk base_url folder entries [] db

/-- `_get_batch` folder filter: `any(ig in unquote(folder).lower() for ig in
ignored_folders)`. -/
def folderIsIgnored (folder : Str) : Bool :=
  ignored_folders.any (fun ig => isSubstr ig (pyLower (pyUnquote folder)))

/-- `_get_batch(ctx, processed)`: up to `n` (= 8) dequeue attempts; an
unvisited folder is marked visited, then either dropped (ignored) or added to
the batch.  Returns `(batch, remaining queue, visited)`. -/
def getBatch : Nat → List Str → List Str → List Str × List Str × List Str
  | 0, q, v => ([], q, v)
  | _ + 1, [], v => ([], [], v)
  | n + 1, f :: q, v =>
    if f ∈ v then getBatch n q v
    else
      let v' := f :: v
      if folderIsIgnored f then getBatch n q v'
      else
        let (b, q', v'') := getBatch n q v'
        (f :: b, q', v'')

/-- `_process_batch`: consume each worker result in submission order,
enqueueing discovered folders not in `visited`; `sqlite3.Error`,
`ConnectionError` and `TimeoutError` from a worker are swallowed, anything
else (the extractor's `IndexError`) aborts the loop and propagates. -/
def processBatch (fetch : Str → Except FetchErr (List Entry))
    (sqliteOk : Str → Bool) (base_url : Str) :
    List Str → List Str → List Str → List Row → List Str × List Row × Option PyExn
  | [], q, _, db => (q, db, none)
  | f :: fs, q, v, db =>
    match processFolder fetch sqliteOk base_url f db with
    | .ok (nfs, db') =>
      processBatch fetch sqliteOk base_url fs (q ++ nfs.filter (fun nf => ¬ nf ∈ v)) v db'
    | .error .sqliteError => processBatch fetch sqliteOk base_url fs q v db
    | .error .connectionError => processBatch fetch sqliteOk base_url fs q v db
    | .error .timeoutError => processBatch fetch sqliteOk base_url fs q v db
    | .error .indexError => (q, db, some .indexError)

/-- The crawl-session state.  `fetched` is instrumentation recording, in
order, every folder submitted to `_process_folder` (i.e. dispatched to the
listing fetch); `exn` records an exception escaping `crawl_and_index`. -/
structure CrawlState where
  queue : List Str
  visited : List Str
  db : List Row
  fetched : List Str
  exn : Option PyExn
deriving DecidableEq

/-- The `while not ctx.folder_queue.empty()` loop of `crawl_and_index`,
fuelled (the site tree drives real termination; `fuel` bounds iterations). -/
def crawlLoop (fetch : Str → Except FetchErr (List Entry))
    (sqliteOk : Str → Bool) (base_url : Str) : Nat → CrawlState → CrawlState
  | 0, s => s
  | fuel + 1, s =>
    if s.queue = [] then s
    else
      let (batch, q', v') := getBatch 8 s.queue s.visited
      if batch = [] then { s with queue := q', visited := v' }
      else
        let (q'', db', exn) := processBatch fetch sqliteOk base_url batch q' v' s.db
        let s' : CrawlState :=
          { queue := q'', visited := v', db := db'
            fetched := s.fetched ++ batch, exn := exn }
        match exn with
        | some _ => s'
        | none => crawlLoop fetch sqliteOk base_url fuel s'

/-- `crawl_and_index(base_url, db_path, progress_callback)`: table created if
absent (`db0` is the pre-existing table), queue seeded with the root path
`""`. -/
def crawl_and_index (fetch : Str → Except FetchErr (List Entry))
    (sqliteOk : Str → Bool) (base_url : Str) (db0 : List Row) (fuel : Nat) :
    CrawlState :=
  crawlLoop fetch sqliteOk base_url fuel
    { queue := [([] : Str)], visited := [], db := db0, fetched := [], exn := none }

/-! ## Rescan (crawler.py `rescan_database`) -/

/-- Python `str.removeprefix`. -/
def removePfx (pre s : Str) : Str :=
  if isPrefixB pre s then s.drop pre.length else s

/-- The `UPDATE files SET title = ?, ... WHERE url = ?` statement: rows whose
`url` equals `meta.url` get the six metadata fields overwritten;
`url`, `size` and `last_modified` are not in the SET list. -/
def applyUpdate (meta : Meta) (db : List Row) : List Row :=
  db.map (fun r =>
    if r.url = meta.url then
      { r with title := meta.title, platform := meta.platform
               collection := meta.collection, region := meta.region
               language := meta.language, version := meta.version }
    else r)

/-- The `for i, url in enumerate(urls, 1)` loop of `rescan_database`.
`committed` is the table as of the last `conn.commit()`, `pending` the
table including uncommitted updates.  `errAt = some j` injects a
`sqlite3.Error` into the `UPDATE` executed at loop counter `j` (the error
points the claim quantifies over); a `parse_metadata_from_path` exception
propagates out of the `try` (its `except` clause only catches
`sqlite3.Error`).  Returns (committed, pending, exception). -/
def rescanLoop (base_url : Str) (errAt : Option Nat) :
    List Str → Nat → List Row → List Row → List Row × List Row × Option PyExn
  | [], _, committed, pending => (committed, pending, none)
  | url :: rest, i, committed, pending =>
    let url_path := removePfx base_url url
    match parse_metadata_from_path url_path base_url with
    | .error e => (committed, pending, some e)
    | .ok none => rescanLoop base_url errAt rest (i + 1) committed pending
    | .ok (some meta0) =>
      if errAt = some i then (committed, pending, some .sqliteError)
      else
        let meta := { meta0 with platform := normalize_platform_name meta0.platform }
        let pending' := applyUpdate meta pending
        let committed' := if i % 100 = 0 then pending' else committed
        rescanLoop base_url errAt rest (i + 1) committed' pending'

/-! ## Purge (crawler.py `delete_ignored_platforms`) -/

/-- One-position SQL `LIKE` fragment match: `'_'` matches any character,
other pattern characters match themselves.  (No ignore-list entry contains
`'%'`, so only the implicit `%...%` wrapper of the built patterns needs
modelling, via `likeFragMatch`.) -/
def likeHere : Str → Str → Bool
  | [], _ => true
  | _ :: _, [] => false
  | p :: ps, c :: cs => (p = '_' ∨ p = c) && likeHere ps cs

/-- `LOWER(col) LIKE '%frag%'`: the fragment matches at some offset. -/
def likeFragMatch (pat : Str) : Str → Bool
  | [] => likeHere pat []
  | c :: rest => likeHere pat (c :: rest) || likeFragMatch pat rest

/-- The combined ignore list `ignored = ignored_base_folders + ignored_folders`. -/
def ignoredAll : List Str := ignored_base_folders ++ ignored_folders

/-- The WHERE clause of `delete_ignored_platforms`: any pattern matches
`LOWER(url)`, or any matches `LOWER(platform)`, or any matches
`LOWER(title)`.  SQLite's `LOWER` is ASCII-only, matching `pyLower`. -/
def rowMatchesIgnored (r : Row) : Bool :=
  ignoredAll.any (fun p => likeFragMatch p (pyLower r.url)) ||
  ignoredAll.any (fun p => likeFragMatch p (pyLower r.platform)) ||
  ignoredAll.any (fun p => likeFragMatch p (pyLower r.title))

/-- Row-id numbering: the store rows paired with their rowids. -/
def enumFrom (i : Nat) : List α → List (Nat × α)
  | [] => []
  | a :: rest => (i, a) :: enumFrom (i + 1) rest

/-- Worker for `deleteBatches`, fuelled to keep the recursion structural. -/
def deleteBatchesGo (bs : Nat) : Nat → List Nat → List (Nat × Row) → List (Nat × Row)
  | 0, _, rows => rows
  | fuel + 1, ids, rows =>
    match ids with
    | [] => rows
    | i :: rest =>
      if bs = 0 then rows
      else
        deleteBatchesGo bs fuel ((i :: rest).drop bs)
          (rows.filter (fun p => ¬ p.1 ∈ (i :: rest).take bs))

/-- The `while matching_ids:` deletion loop, `batch_size` ids per DELETE.
`batch_size = 0` would loop forever in Python (never reached: the only call
site uses the default 500); the guard keeps the model total. -/
def deleteBatches (bs : Nat) (ids : List Nat) (rows : List (Nat × Row)) :
    List (Nat × Row) :=
  deleteBatchesGo bs (ids.length + 1) ids rows

/-- `delete_ignored_platforms(conn, progress_callback, batch_size)`:
select the rowids matching the WHERE clause, then delete them in batches. -/
def delete_ignored_platforms (batch_size : Nat) (rows : List Row) : List Row :=
  let indexed := enumFrom 0 rows
  let matching_ids := (indexed.filter (fun p => rowMatchesIgnored p.2)).map (fun p => p.1)
  (deleteBatches batch_size matching_ids indexed).map (fun p => p.2)

/-- `rescan_database(db_path, base_url, progress_callback)` without the
file-system backup step (claim-irrelevant): iterate the stored URLs,
re-derive and UPDATE metadata committing every 100 records, then run the
purge and final commit.  `errAt` injects a store error into the update loop
(see `rescanLoop`), `errInDelete` injects one into the purge/commit phase.
On `sqlite3.Error` the code rolls back (state = last commit); an extractor
exception skips the `except` and hits `finally: conn.close()`, which also
discards uncommitted changes.  Returns (final table, escaped exception). -/
def rescan_database (base_url : Str) (errAt : Option Nat) (errInDelete : Bool)
    (db : List Row) : List Row × Option PyExn :=
  let urls := db.map (fun r => r.url)
  let (committed, pending, exn) := rescanLoop base_url errAt urls 1 db db
  match exn with
  | some e => (committed, some e)
  | none =>
    if errInDelete then (committed, some .sqliteError)
    else (delete_ignored_platforms 500 pending, none)

/-! ## Download manager (downloader.py `Downloader`)

One download is modelled by its wget stderr line stream plus two oracles: the
point at which the shared cancel flag becomes set (`cancelAt = some k`: the
flag is set once `k` lines have been consumed, so the check at the top of the
stream loop first sees it when processing line `k`), and whether the
`Path.unlink` of `clean_up_partial_files` succeeds (`unlinkOk`; the source
swallows `FileNotFoundError`/`PermissionError`/`OSError`, leaving the file in
place when the unlink raises).  `wget -O filepath` writes directly under the
final file name — no `*.incomplete` temporary is ever created — so one
`fileRemains` flag describes the disk state for the job. -/

/-- `re.search(r"Length: (\d+)", line)`: first literal `"Length: "` followed
by at least one digit; captures the maximal digit run. -/
def searchLen : Str → Option Nat
  | [] => none
  | c :: rest =>
    if isPrefixB ("Length: ".data) (c :: rest) then
      match (c :: rest).drop 8 with
      | d :: ds =>
        if isDigitA d then some (digitsToNat ((d :: ds).takeWhile isDigitA))
        else searchLen rest
      | [] => searchLen rest
    else searchLen rest

/-- `re.search(r"(\d+)%", line)`: leftmost maximal digit run immediately
followed by `'%'` (positions inside a failed run also fail, so advancing one
character at a time matches the regex engine). -/
def searchPct : Str → Option Nat
  | [] => none
  | c :: rest =>
    if isDigitA c then
      match (c :: rest).dropWhile isDigitA with
      | '%' :: _ => some (digitsToNat ((c :: rest).takeWhile isDigitA))
      | _ => searchPct rest
    else searchPct rest

/-- Whether the shared cancel flag is set when `i` stderr lines have been
consumed. -/
def flagAt (cancelAt : Option Nat) (i : Nat) : Bool :=
  match cancelAt with
  | some k => k ≤ i
  | none => false

/-- The `for line in process.stderr` loop of `_download_file`.  State:
`(total_bytes, downloaded_bytes)`; returns the final state, the progress
callbacks issued, and whether the loop broke on the cancel flag (issuing
`process.terminate()`).  `int(percent / 100 * total)` is modelled as exact
natural division (float rounding is irrelevant to every claim). -/
def dlLoop (cancelAt : Option Nat) (idx : Nat) (url : Str) :
    Nat → Option Nat → Nat → List Str →
    Option Nat × Nat × List (Nat × Str × Nat × Nat) × Bool
  | _, total, dl, [] => (total, dl, [], false)
  | i, total, dl, line :: rest =>
    if flagAt cancelAt i then (total, dl, [], true)
    else
      let total' := match searchLen line with
        | some n => some n
        | none => total
      let (dl', calls) := match searchPct line, total' with
        | some p, some t =>
          if t = 0 then (dl, [])
          else (p * t / 100, [(idx, url, p * t / 100, t)])
        | _, _ => (dl, [])
      let (tf, df, cs, broke) := dlLoop cancelAt idx url (i + 1) total' dl' rest
      (tf, df, calls ++ cs, broke)

/-- Result of one `_download_file` call. -/
structure DlResult where
  fileRemains : Bool
  finished : Bool
  brokeOnFlag : Bool
  progress : List (Nat × Str × Nat × Nat)
deriving DecidableEq

/-- `Downloader._download_file(file_idx, url, progress_callback)`:
stream loop, then the post-`wait` completion callback when the flag is not
set, and `finally: clean_up_partial_files(filepath)` when the transfer did
not finish (the `-O` output file exists from process start). -/
def download_file (cancelAt : Option Nat) (unlinkOk : Bool) (idx : Nat)
    (url : Str) (lines : List Str) : DlResult :=
  let (total, dl, calls, broke) := dlLoop cancelAt idx url 0 none 0 lines
  if ¬ flagAt cancelAt lines.length then
    let fin := match total with
      | some t => if t = 0 then dl else t
      | none => dl
    { fileRemains := true, finished := true, brokeOnFlag := broke
      progress := calls ++ [(idx, url, fin, fin)] }
  else
    { fileRemains := ¬ unlinkOk, finished := false, brokeOnFlag := broke
      progress := calls }

/-- One queued job: its URL and the stderr stream its wget would produce. -/
structure Job where
  url : Str
  lines : List Str
deriving DecidableEq

/-- The worker loop of `Downloader.start`: jobs are pulled until the queue is
empty or the cancel flag is set.  `cancel = some (jc, k)` means the flag is
set during job `jc` after `k` of its stderr lines (so jobs after `jc` observe
the flag at the `while not self.cancel_flag.is_set()` check and never start). -/
def runWorker (cancel : Option (Nat × Nat)) (unlinkOk : Bool) :
    Nat → List Job → List DlResult
  | _, [] => []
  | j, job :: rest =>
    let flagSet := match cancel with
      | some (jc, _) => decide (jc < j)
      | none => false
    if flagSet then []
    else
      let myCancel := match cancel with
        | some (jc, k) => if jc = j then some k else none
        | none => none
      download_file myCancel unlinkOk j job.url job.lines ::
        runWorker cancel unlinkOk (j + 1) rest

/-- Shared downloader bookkeeping touched by `cancel_all`: the job queue and
the `terminated` state of each spawned subprocess. -/
structure DownloaderState where
  queue : List Str
  procTerminated : List Bool
deriving DecidableEq

/-- `Downloader.cancel_all`: set the flag, drain the queue with `get_nowait`,
and `terminate()` every recorded subprocess (exceptions suppressed). -/
def cancel_all (s : DownloaderState) : DownloaderState :=
  { queue := [], procTerminated := s.procTerminated.map (fun _ => true) }

/-! ## Claim-statement helpers -/

/-- Modelled from the spec: the random-ID rejection heuristic of §4.1 ("reject
if the title with parenthetical groups removed is all-digits with length ≥ 8,
OR alphanumeric with length ≥ 8 AND does not start with a run of ≥ 4
letters").  No such test exists anywhere in `src/` — this definition only
serves to state the claims that reference the heuristic. -/
def randomIdHeuristic (t : Str) : Bool :=
  decide ((8 ≤ t.length ∧ t.all isDigitA) ∨
    (8 ≤ t.length ∧ t.all isAlnumA ∧ (t.takeWhile isAlphaA).length < 4))

/-- Whether a stored `size` value is in the claimed canonical form: a
non-empty all-digits string, i.e. an integer byte count. -/
def isIntegerBytes : Option Str → Bool
  | some s => !s.isEmpty && s.all isDigitA
  | none => false

/-- The frame relation of the rescan update step: `url`, `size` and
`last_modified` unchanged (only the six metadata fields may differ). -/
def frameRel (r r' : Row) : Prop :=
  r'.url = r.url ∧ r'.size = r.size ∧ r'.last_modified = r.last_modified

instance : DecidablePred fun p : Row × Row => frameRel p.1 p.2 := by
  intro p; unfold frameRel; infer_instance

instance {ε α : Type} [DecidableEq ε] [DecidableEq α] :
    DecidableEq (Except ε α) := fun x y =>
  match x, y with
  | .ok a, .ok b =>
    if h : a = b then .isTrue (by rw [h])
    else .isFalse (fun hh => h (by injection hh))
  | .error a, .error b =>
    if h : a = b then .isTrue (by rw [h])
    else .isFalse (fun hh => h (by injection hh))
  | .ok _, .error _ => .isFalse (fun hh => by injection hh)
  | .error _, .ok _ => .isFalse (fun hh => by injection hh)

/-! ## Concrete scenarios used by counterexamples and witnesses -/

/-- The record `parse_metadata_from_path` builds for
`Coll/Platform/3f9a8b2c1d4e5f60.zip` under base `m/`. -/
def hexMeta : Meta :=
  { title := "3f9a8b2c1d4e5f60".data, platform := "Platform".data
    collection := "Coll".data, region := none, language := none, version := none
    url := "m/Coll/Platform/3f9a8b2c1d4e5f60.zip".data }

/-- The record `parse_metadata_from_path` builds for
`Coll/Platform/Super Mario Bros.zip` under base `m/`. -/
def marioMeta : Meta :=
  { title := "Super Mario Bros".data, platform := "Platform".data
    collection := "Coll".data, region := none, language := none, version := none
    url := "m/Coll/Platform/Super Mario Bros.zip".data }

/-- A stored row whose title is a bare 16-character hex token and which
matches no Ignore Ruleset entry. -/
def hexRow : Row :=
  { url := "m/a/b/3f9a8b2c1d4e5f60.zip".data, title := "3f9a8b2c1d4e5f60".data
    platform := "B".data, collection := "a".data, region := none
    language := none, version := none, size := none, last_modified := none }

/-- A stale stored row (old metadata) under the given URL; used to build
rescan scenarios. -/
def mkStale (u : Str) : Row :=
  { url := u, title := "x".data, platform := "B".data, collection := "a".data
    region := none, language := none, version := none
    size := some ("1 MiB".data), last_modified := some ("2024".data) }

/-- A 101-row store: rows 1-99 have non-`.zip` URLs the extractor skips, rows
100 and 101 parse and receive fresh metadata during a rescan. -/
def db101 : List Row :=
  ((List.range 99).map (fun i => mkStale (("u".data) ++ (toString i).data))) ++
    [mkStale ("m/a/b/t100.zip".data), mkStale ("m/a/b/t101.zip".data)]

/-- A listing-fetch oracle with a diamond-plus-duplicates tree: the root lists
`a/` and `b/`, folder `a/` lists the same child `c/` seventeen times, folder
`b/` lists `d/`. -/
def fetchDup (u : Str) : Except FetchErr (List Entry) :=
  if u = ("m/".data) then .ok [⟨"a/".data, none, none⟩, ⟨"b/".data, none, none⟩]
  else if u = ("m/a/".data) then .ok (List.replicate 17 ⟨"c/".data, none, none⟩)
  else if u = ("m/b/".data) then .ok [⟨"d/".data, none, none⟩]
  else .ok []

/-- A listing entry with a human-readable size cell. -/
def sizedEntry : Entry :=
  ⟨"Game.zip".data, some ("14.3 MiB".data), some ("2024-01-01".data)⟩

/-- A listing-fetch oracle serving one game file with a human-readable size
cell. -/
def fetchSized (u : Str) : Except FetchErr (List Entry) :=
  if u = ("m/Coll/Plat/".data) then .ok [sizedEntry] else .ok []

/-- The row the crawl writes for the `fetchSized` listing entry. -/
def sizedRow : Row :=
  { url := "m/Coll/Plat/Game.zip".data, title := "Game".data
    platform := "Plat".data, collection := "Coll".data, region := none
    language := none, version := none, size := some ("14.3 MiB".data)
    last_modified := some ("2024-01-01".data) }

/-- A listing-fetch oracle that always fails with a connection error. -/
def fetchDown (_ : Str) : Except FetchErr (List Entry) := .error .conn

/-! ## C2: random-ID rejection -/

/-- C2 counterexample: the claim says `extract` of a path ending in
`3f9a8b2c1d4e5f60.zip` returns `None`; the code returns a record (whose
stripped title does satisfy the claimed heuristic), so the claim is false. -/
theorem C2_counterexample :
    parse_metadata_from_path ("Coll/Platform/3f9a8b2c1d4e5f60.zip".data) ("m/".data) ≠
      Except.ok none ∧
    randomIdHeuristic ("3f9a8b2c1d4e5f60".data) = true := by decide

/-- C2 (corrected): `parse_metadata_from_path` applies no random-ID
rejection: the hex-named path yields a record with title
`3f9a8b2c1d4e5f60`, and `Super Mario Bros.zip` yields a record with title
`Super Mario Bros`. -/
theorem C2_no_random_id_rejection :
    parse_metadata_from_path ("Coll/Platform/3f9a8b2c1d4e5f60.zip".data) ("m/".data) =
      Except.ok (some hexMeta) ∧
    parse_metadata_from_path ("Coll/Platform/Super Mario Bros.zip".data) ("m/".data) =
      Except.ok (some marioMeta) := by decide

/-! ## C6: short paths -/

/-- C6 (code bug): the claim (and spec §4.1) says a path with fewer than the
minimum segments is rejected with `None`; on the bare path `file.zip` the
code instead evaluates `parts[1]` on a one-element list and raises
`IndexError`, which no caller of the extractor catches. -/
theorem C6_short_path_raises_index_error :
    parse_metadata_from_path ("file.zip".data) ("m/".data) =
      Except.error PyExn.indexError := by decide

/-! ## C1: rescan atomicity -/

/-- C1 counterexample: on the 101-row store, a store error during the 101st
update (after the batch commit at record 100) leaves the table different from
its pre-rescan state — row 100 keeps its freshly committed metadata — so the
rescan is not all-or-nothing. -/
theorem C1_counterexample :
    (rescan_database ("m/".data) (some 101) false db101).2 =
      some PyExn.sqliteError ∧
    ¬ (rescan_database ("m/".data) (some 101) false db101).1 = db101 := by
  decide

/-! ## C5: normalizer idempotence -/

/-- C5 counterexample: dropping the ignored token `bios` makes the two `x`
tokens adjacent, so a second `normalize_platform_name` pass collapses them —
`normalize` is not idempotent. -/
theorem C5_counterexample :
    normalize_platform_name (normalize_platform_name ("x bios x".data)) ≠
      normalize_platform_name ("x bios x".data) := by decide

/-! ## C4: purge completeness -/

/-- C4 counterexample: a stored record whose title satisfies the random-ID
heuristic but contains no Ignore Ruleset substring survives the purge pass
untouched, so purge completeness as claimed (which includes the heuristic)
fails. -/
theorem C4_counterexample :
    delete_ignored_platforms 500 [hexRow] = [hexRow] ∧
    randomIdHeuristic hexRow.title = true := by decide

/-! ## C7: size canonical form -/

/-- C7 counterexample: the crawl stores the listing's human-readable size
cell (`"14.3 MiB"`) verbatim; the written record's size is not an integer
byte count. -/
theorem C7_counterexample :
    processFolder fetchSized (fun _ => true) ("m/".data) ("Coll/Plat/".data) [] =
      Except.ok ([], [sizedRow]) ∧
    isIntegerBytes sizedRow.size = false := by decide

/-! ## C9: visited-set dedup -/

/-- C9 counterexample: with the duplicate-listing tree of `fetchDup`, folder
`b/d/` is enqueued (it is still waiting in the frontier when the crawl stops)
and is not ignored, yet it is dispatched to the listing fetch zero times —
the eight dequeue attempts of one `_get_batch` round all hit already-visited
duplicates, the batch comes back empty, and the main loop breaks.  So "each
distinct folder path is dispatched exactly once" fails. -/
theorem C9_counterexample :
    ("b/d/".data) ∈ (crawl_and_index fetchDup (fun _ => true) ("m".data) [] 10).queue ∧
    (crawl_and_index fetchDup (fun _ => true) ("m".data) [] 10).fetched.count ("b/d/".data) = 0 ∧
    folderIsIgnored ("b/d/".data) = false ∧
    (crawl_and_index fetchDup (fun _ => true) ("m".data) [] 10).exn = none := by
  decide

/-! ## C10: download cancellation cleanup -/

/-- C10 counterexample: a job cancelled mid-transfer whose partial-file
unlink fails (`PermissionError`/`OSError`, silently suppressed by
`clean_up_partial_files`) leaves the partially written file on disk, so "the
partially written file of each cancelled job is deleted" does not hold for
every cancellation. -/
theorem C10_counterexample :
    (download_file (some 0) false 0 ("u".data) [("x".data)]).fileRemains = true ∧
    (download_file (some 0) false 0 ("u".data) [("x".data)]).finished = false := by
  decide

/-! ## C8: rescan frame property -/

theorem frameRel_refl (r : Row) : frameRel r r := ⟨rfl, rfl, rfl⟩

theorem forall2_frameRel_self (db : List Row) : List.Forall₂ frameRel db db := by
  induction db with
  | nil => exact List.Forall₂.nil
  | cons r rest ih => exact List.Forall₂.cons (frameRel_refl r) ih

/-- Mapping a pointwise frame-preserving function over the right-hand list
preserves the frame relation. -/
theorem forall2_frameRel_map {db p : List Row} (f : Row → Row)
    (hf : ∀ r, frameRel r (f r)) (h : List.Forall₂ frameRel db p) :
    List.Forall₂ frameRel db (p.map f) := by
  induction h with
  | nil => exact List.Forall₂.nil
  | @cons a b as bs hrel _ ih =>
    refine List.Forall₂.cons ?_ ih
    exact ⟨(hf b).1.trans hrel.1, (hf b).2.1.trans hrel.2.1,
      (hf b).2.2.trans hrel.2.2⟩

/-- The `UPDATE` of the rescan loop touches neither `url` nor `size` nor
`last_modified` on any row. -/
theorem applyUpdate_frame {db p : List Row} (meta : Meta)
    (h : List.Forall₂ frameRel db p) :
    List.Forall₂ frameRel db (applyUpdate meta p) := by
  refine forall2_frameRel_map _ ?_ h
  intro r
  unfold frameRel
  split <;> exact ⟨rfl, rfl, rfl⟩

/-- Both the committed and the pending table view of the rescan update loop
stay frame-related to any list both inputs are frame-related to. -/
theorem rescanLoop_frame (base : Str) (errAt : Option Nat) (db : List Row) :
    ∀ (urls : List Str) (i : Nat) (c p : List Row),
      List.Forall₂ frameRel db c → List.Forall₂ frameRel db p →
      List.Forall₂ frameRel db (rescanLoop base errAt urls i c p).1 ∧
      List.Forall₂ frameRel db (rescanLoop base errAt urls i c p).2.1 := by
  intro urls
  induction urls with
  | nil => intro i c p hc hp; exact ⟨hc, hp⟩
  | cons url rest ih =>
    intro i c p hc hp
    simp only [rescanLoop]
    cases parse_metadata_from_path (removePfx base url) base with
    | error e => exact ⟨hc, hp⟩
    | ok o =>
      cases o with
      | none => exact ih (i + 1) c p hc hp
      | some meta0 =>
        by_cases herr : errAt = some i
        · simp only [if_pos herr]
          exact ⟨hc, hp⟩
        · simp only [if_neg herr]
          by_cases hmod : i % 100 = 0
          · simp only [if_pos hmod]
            exact ih (i + 1) _ _ (applyUpdate_frame _ hp) (applyUpdate_frame _ hp)
          · simp only [if_neg hmod]
            exact ih (i + 1) _ _ hc (applyUpdate_frame _ hp)

/-- C8 (confirmed): for every store and every injected error point, along the
whole rescan update loop both the pending and the committed table keep, row
by row, the original `url`, `size` and `last_modified` (only the six metadata
fields can change), and no rows are added or removed by the update step (the
frame relation forces equal lengths). -/
theorem C8_rescan_frame (base : Str) (errAt : Option Nat) (db : List Row) :
    List.Forall₂ frameRel db
      (rescanLoop base errAt (db.map (fun r => r.url)) 1 db db).1 ∧
    List.Forall₂ frameRel db
      (rescanLoop base errAt (db.map (fun r => r.url)) 1 db db).2.1 :=
  rescanLoop_frame base errAt db (db.map (fun r => r.url)) 1 db db
    (forall2_frameRel_self db) (forall2_frameRel_self db)

/-! ## C3: fetch errors are swallowed -/

/-- The only exception `platformRawOf` can raise is `IndexError`. -/
theorem platformRawOf_error {u : Str} {parts : List Str} {e : PyExn}
    (h : platformRawOf u parts = .error e) : e = .indexError := by
  unfold platformRawOf at h
  split at h
  · split at h <;> simp_all
  · split at h
    · split at h <;> simp_all
    · split at h <;> simp_all

/-- The only exception `parse_metadata_from_path` can raise is `IndexError`. -/
theorem parse_error_eq_indexError {p b : Str} {e : PyExn}
    (h : parse_metadata_from_path p b = .error e) : e = .indexError := by
  unfold parse_metadata_from_path at h
  split at h
  · simp_all
  · simp only [] at h
    split at h
    case h_1 => simp_all
    case h_2 =>
      rename_i heq
      injection h with h2
      subst h2
      exact platformRawOf_error heq
    case h_3 => simp_all
    case h_4 => simp_all

/-- `_process_batch` only lets `IndexError` escape. -/
theorem processBatch_exn (fetch : Str → Except FetchErr (List Entry))
    (sqliteOk : Str → Bool) (base_url : Str) :
    ∀ (batch q v : List Str) (db : List Row),
      (processBatch fetch sqliteOk base_url batch q v db).2.2 = none ∨
      (processBatch fetch sqliteOk base_url batch q v db).2.2 = some .indexError := by
  intro batch
  induction batch with
  | nil => intro q v db; exact Or.inl rfl
  | cons f fs ih =>
    intro q v db
    simp only [processBatch]
    cases hpf : processFolder fetch sqliteOk base_url f db with
    | ok r => exact ih _ _ _
    | error e => cases e <;> first | exact ih _ _ _ | exact Or.inr rfl

/-- The crawl loop preserves "the recorded exception is none or IndexError". -/
theorem crawlLoop_exn (fetch : Str → Except FetchErr (List Entry))
    (sqliteOk : Str → Bool) (base_url : Str) :
    ∀ (fuel : Nat) (s : CrawlState),
      s.exn = none ∨ s.exn = some .indexError →
      (crawlLoop fetch sqliteOk base_url fuel s).exn = none ∨
      (crawlLoop fetch sqliteOk base_url fuel s).exn = some .indexError := by
  intro fuel
  induction fuel with
  | zero => intro s hs; exact hs
  | succ n ih =>
    intro s hs
    simp only [crawlLoop]
    by_cases hq : s.queue = []
    · simp only [if_pos hq]; exact hs
    · simp only [if_neg hq]
      by_cases hb : (getBatch 8 s.queue s.visited).1 = []
      · simp only [if_pos hb]; exact hs
      · simp only [if_neg hb]
        have hpb := processBatch_exn fetch sqliteOk base_url
          (getBatch 8 s.queue s.visited).1 (getBatch 8 s.queue s.visited).2.1
          (getBatch 8 s.queue s.visited).2.2 s.db
        cases hexn : (processBatch fetch sqliteOk base_url
            (getBatch 8 s.queue s.visited).1 (getBatch 8 s.queue s.visited).2.1
            (getBatch 8 s.queue s.visited).2.2 s.db).2.2 with
        | none =>
          exact ih _ (Or.inl rfl)
        | some e =>
          rw [hexn] at hpb
          cases hpb with
          | inl hh => exact absurd hh (by simp)
          | inr hh =>
            injection hh with hh2
            subst hh2
            exact Or.inr rfl

/-- C3 (confirmed): a folder whose listing fetch raises a connection or
timeout error yields no discovered children and no records and changes
nothing in the store, and no connection/timeout error ever escapes
`crawl_and_index` — for every fetch oracle, store-write oracle, store state
and fuel bound, the crawl run's recorded escaping exception is never a
connection or timeout error. -/
theorem C3_fetch_errors_swallowed :
    (∀ (fetch : Str → Except FetchErr (List Entry)) (sqliteOk : Str → Bool)
        (base_url folder : Str) (db : List Row) (e : FetchErr),
      fetch (folderUrlOf base_url folder) = .error e →
      processFolder fetch sqliteOk base_url folder db = .ok ([], db)) ∧
    (∀ (fetch : Str → Except FetchErr (List Entry)) (sqliteOk : Str → Bool)
        (base_url : Str) (db0 : List Row) (fuel : Nat),
      (crawl_and_index fetch sqliteOk base_url db0 fuel).exn ≠
        some .connectionError ∧
      (crawl_and_index fetch sqliteOk base_url db0 fuel).exn ≠
        some .timeoutError) := by
  constructor
  · intro fetch sqliteOk base_url folder db e hfe
    unfold processFolder
    rw [hfe]
    cases e <;> rfl
  · intro fetch sqliteOk base_url db0 fuel
    have h := crawlLoop_exn fetch sqliteOk base_url fuel
      { queue := [([] : Str)], visited := [], db := db0, fetched := [], exn := none }
      (Or.inl rfl)
    unfold crawl_and_index
    cases h with
    | inl hh => rw [hh]; exact ⟨by simp, by simp⟩
    | inr hh => rw [hh]; exact ⟨by simp, by simp⟩

/-- Witness for C3: a concrete always-down fetch oracle — the folder yields
nothing, the store is untouched, and the crawl records no connection or
timeout error. -/
theorem C3_fetch_errors_swallowed_witness :
    processFolder fetchDown (fun _ => true) ("m/".data) ("a/".data) [hexRow] =
      Except.ok ([], [hexRow]) ∧
    (crawl_and_index fetchDown (fun _ => true) ("m/".data) [] 5).exn ≠
      some .connectionError :=
  ⟨C3_fetch_errors_swallowed.1 fetchDown (fun _ => true) ("m/".data) ("a/".data)
      [hexRow] .conn rfl,
    (C3_fetch_errors_swallowed.2 fetchDown (fun _ => true) ("m/".data) [] 5).1⟩

/-! ## C9: each folder fetched at most once -/

/-- `_get_batch` invariants: the batch has no duplicates, none of its folders
was visited before, the visited set only grows, and every batch folder is
marked visited on return. -/
theorem getBatch_spec :
    ∀ (n : Nat) (q v : List Str),
      (getBatch n q v).1.Nodup ∧
      (∀ f ∈ (getBatch n q v).1, ¬ f ∈ v) ∧
      (∀ f ∈ v, f ∈ (getBatch n q v).2.2) ∧
      (∀ f ∈ (getBatch n q v).1, f ∈ (getBatch n q v).2.2) := by
  intro n
  induction n with
  | zero =>
    intro q v
    refine ⟨List.nodup_nil, by simp [getBatch], ?_, by simp [getBatch]⟩
    intro f hf
    simpa [getBatch] using hf
  | succ m ih =>
    intro q v
    cases q with
    | nil =>
      refine ⟨List.nodup_nil, by simp [getBatch], ?_, by simp [getBatch]⟩
      intro f hf
      simpa [getBatch] using hf
    | cons f rest =>
      simp only [getBatch]
      by_cases hv : f ∈ v
      · simp only [if_pos hv]
        exact ih rest v
      · simp only [if_neg hv]
        by_cases hig : folderIsIgnored f
        · simp only [if_pos hig]
          obtain ⟨h1, h2, h3, h4⟩ := ih rest (f :: v)
          refine ⟨h1, ?_, ?_, h4⟩
          · intro g hg hgv
            exact h2 g hg (List.mem_cons_of_mem f hgv)
          · intro g hgv
            exact h3 g (List.mem_cons_of_mem f hgv)
        · simp only [if_neg hig]
          obtain ⟨h1, h2, h3, h4⟩ := ih rest (f :: v)
          refine ⟨?_, ?_, ?_, ?_⟩
          · exact List.nodup_cons.mpr
              ⟨fun hf => h2 f hf (List.mem_cons_self f v), h1⟩
          · intro g hg
            rcases List.mem_cons.mp hg with rfl | hg'
            · exact hv
            · intro hgv
              exact h2 g hg' (List.mem_cons_of_mem f hgv)
          · intro g hgv
            exact h3 g (List.mem_cons_of_mem f hgv)
          · intro g hg
            rcases List.mem_cons.mp hg with rfl | hg'
            · exact h3 g (List.mem_cons_self g v)
            · exact h4 g hg'

/-- Folders already dispatched stay recorded in `visited`, so each crawl-loop
round appends only fresh folders to the dispatch log. -/
theorem crawlLoop_fetched (fetch : Str → Except FetchErr (List Entry))
    (sqliteOk : Str → Bool) (base_url : Str) :
    ∀ (fuel : Nat) (s : CrawlState),
      s.fetched.Nodup → (∀ f ∈ s.fetched, f ∈ s.visited) →
      (crawlLoop fetch sqliteOk base_url fuel s).fetched.Nodup := by
  intro fuel
  induction fuel with
  | zero => intro s h1 _; exact h1
  | succ n ih =>
    intro s h1 h2
    simp only [crawlLoop]
    by_cases hq : s.queue = []
    · simp only [if_pos hq]; exact h1
    · simp only [if_neg hq]
      obtain ⟨g1, g2, g3, g4⟩ := getBatch_spec 8 s.queue s.visited
      by_cases hb : (getBatch 8 s.queue s.visited).1 = []
      · simp only [if_pos hb]; exact h1
      · simp only [if_neg hb]
        have hnodup : (s.fetched ++ (getBatch 8 s.queue s.visited).1).Nodup := by
          refine List.Nodup.append h1 g1 ?_
          intro a ha hab
          exact g2 a hab (h2 a ha)
        have hsub : ∀ f ∈ s.fetched ++ (getBatch 8 s.queue s.visited).1,
            f ∈ (getBatch 8 s.queue s.visited).2.2 := by
          intro a ha
          rcases List.mem_append.mp ha with ha1 | ha2
          · exact g3 a (h2 a ha1)
          · exact g4 a ha2
        cases hexn : (processBatch fetch sqliteOk base_url
            (getBatch 8 s.queue s.visited).1 (getBatch 8 s.queue s.visited).2.1
            (getBatch 8 s.queue s.visited).2.2 s.db).2.2 with
        | some e => exact hnodup
        | none => exact ih _ hnodup hsub

/-- C9 (corrected, at-most-once part): for every fetch oracle, store-write
oracle, base URL, initial store and fuel bound, the list of folders
dispatched to the listing fetch over the whole crawl session has no
duplicates — the visited-set dedup guarantees every distinct folder path is
fetched at most once (the "exactly once" reading fails, see the
counterexample). -/
theorem C9_fetch_at_most_once (fetch : Str → Except FetchErr (List Entry))
    (sqliteOk : Str → Bool) (base_url : Str) (db0 : List Row) (fuel : Nat) :
    (crawl_and_index fetch sqliteOk base_url db0 fuel).fetched.Nodup :=
  crawlLoop_fetched fetch sqliteOk base_url fuel
    { queue := [([] : Str)], visited := [], db := db0, fetched := [], exn := none }
    List.nodup_nil (by intro f hf; simp at hf)

/-! ## C4: purge completeness for ignore-list substrings -/

/-- A literal prefix match is in particular a `LIKE`-fragment match at the
same position (`'_'` also matches itself). -/
theorem isPrefixB_implies_likeHere :
    ∀ (p s : Str), isPrefixB p s = true → likeHere p s = true := by
  intro p
  induction p with
  | nil => intro s _; rfl
  | cons a as ih =>
    intro s h
    cases s with
    | nil => simp [isPrefixB] at h
    | cons b bs =>
      simp only [isPrefixB, Bool.and_eq_true, decide_eq_true_eq] at h
      simp only [likeHere, Bool.and_eq_true]
      exact ⟨by simp [h.1], ih bs h.2⟩

/-- Literal substring containment implies the SQL `LIKE '%pat%'` match. -/
theorem isSubstr_implies_likeFrag :
    ∀ (p s : Str), isSubstr p s = true → likeFragMatch p s = true := by
  intro p s
  induction s with
  | nil =>
    intro h
    simpa [likeFragMatch] using isPrefixB_implies_likeHere p [] (by simpa [isSubstr] using h)
  | cons c cs ih =>
    intro h
    simp only [isSubstr, Bool.or_eq_true] at h
    simp only [likeFragMatch, Bool.or_eq_true]
    cases h with
    | inl hh => exact Or.inl (isPrefixB_implies_likeHere _ _ hh)
    | inr hh => exact Or.inr (ih hh)

/-- The batched rowid deletion deletes exactly the selected ids: with any
positive batch size and sufficient fuel, the surviving rows are those whose
rowid is not in `ids`. -/
theorem deleteBatchesGo_filter (bs : Nat) (hbs : 0 < bs) :
    ∀ (fuel : Nat) (ids : List Nat) (rows : List (Nat × Row)),
      ids.length < fuel →
      deleteBatchesGo bs fuel ids rows =
        rows.filter (fun p => ¬ p.1 ∈ ids) := by
  intro fuel
  induction fuel with
  | zero => intro ids rows h; exact absurd h (Nat.not_lt_zero _)
  | succ n ih =>
    intro ids rows h
    cases ids with
    | nil => simp [deleteBatchesGo]
    | cons i rest =>
      have hbs' : ¬ bs = 0 := Nat.pos_iff_ne_zero.mp hbs
      simp only [deleteBatchesGo, if_neg hbs']
      rw [ih ((i :: rest).drop bs) _ ?hlen]
      case hlen =>
        simp only [List.length_cons] at h
        have := List.length_drop bs (i :: rest)
        simp only [List.length_cons] at this
        omega
      rw [List.filter_filter]
      apply List.filter_congr
      intro a _
      have hsplit : a.1 ∈ (i :: rest) ↔
          a.1 ∈ (i :: rest).take bs ∨ a.1 ∈ (i :: rest).drop bs := by
        conv_lhs => rw [← List.take_append_drop bs (i :: rest)]
        exact List.mem_append
      by_cases h1 : a.1 ∈ (i :: rest).take bs <;>
        by_cases h2 : a.1 ∈ (i :: rest).drop bs <;>
          simp [h1, h2, hsplit]

/-- C4 (corrected, ignore-substring part): after the purge pass, no surviving
record's lower-cased `url`, `platform` or `title` contains any Ignore Ruleset
entry as a substring — for every store, every positive batch size and every
surviving row.  (The random-ID half of the claim fails, see the
counterexample.) -/
theorem C4_purge_ignore_substring_complete (bs : Nat) (rows : List Row)
    (r : Row) (hbs : 0 < bs) (hr : r ∈ delete_ignored_platforms bs rows) :
    ∀ pat ∈ ignoredAll,
      isSubstr pat (pyLower r.url) = false ∧
      isSubstr pat (pyLower r.platform) = false ∧
      isSubstr pat (pyLower r.title) = false := by
  unfold delete_ignored_platforms deleteBatches at hr
  simp only [] at hr
  rw [deleteBatchesGo_filter bs hbs] at hr
  case a => exact Nat.lt_succ_self _
  obtain ⟨⟨i, r'⟩, hmem, hsnd⟩ := List.mem_map.mp hr
  obtain ⟨hin, hnotm⟩ := List.mem_filter.mp hmem
  simp only at hsnd
  rw [hsnd] at hin
  simp only [decide_eq_true_eq] at hnotm
  have hmatch : rowMatchesIgnored r = false := by
    by_contra hq
    have hq' : rowMatchesIgnored r = true := by
      cases hrm : rowMatchesIgnored r with
      | false => exact absurd hrm hq
      | true => rfl
    have hidm : i ∈ ((enumFrom 0 rows).filter
        (fun p => rowMatchesIgnored p.2)).map (fun p => p.1) :=
      List.mem_map.mpr ⟨(i, r), List.mem_filter.mpr ⟨hin, by simpa using hq'⟩, rfl⟩
    exact hnotm hidm
  simp only [rowMatchesIgnored, Bool.or_eq_false_iff] at hmatch
  obtain ⟨⟨hu, hp⟩, ht⟩ := hmatch
  intro pat hpat
  refine ⟨?_, ?_, ?_⟩
  · cases hs : isSubstr pat (pyLower r.url) with
    | false => rfl
    | true =>
      have := isSubstr_implies_likeFrag _ _ hs
      have hall := List.any_eq_false.mp hu pat hpat
      simp [this] at hall
  · cases hs : isSubstr pat (pyLower r.platform) with
    | false => rfl
    | true =>
      have := isSubstr_implies_likeFrag _ _ hs
      have hall := List.any_eq_false.mp hp pat hpat
      simp [this] at hall
  · cases hs : isSubstr pat (pyLower r.title) with
    | false => rfl
    | true =>
      have := isSubstr_implies_likeFrag _ _ hs
      have hall := List.any_eq_false.mp ht pat hpat
      simp [this] at hall

/-- Witness for C4: the hex-titled row survives a purge because nothing in
the ignore list occurs in it, and indeed the theorem reports no ignore entry
is a substring of its fields (instantiated at the entry `"bios"`). -/
theorem C4_purge_ignore_substring_complete_witness :
    isSubstr ("bios".data) (pyLower hexRow.url) = false ∧
    isSubstr ("bios".data) (pyLower hexRow.platform) = false ∧
    isSubstr ("bios".data) (pyLower hexRow.title) = false :=
  C4_purge_ignore_substring_complete 500 [hexRow] hexRow (by decide) (by decide)
    ("bios".data) (by decide)

/-! ## C1: rescan rollback -/

/-- Once the loop counter has passed the injected error index, the update
loop can no longer raise a store error (only the extractor's `IndexError`
remains possible). -/
theorem rescanLoop_no_sqlite_after (base : Str) (j : Nat) :
    ∀ (urls : List Str) (i : Nat) (c p : List Row), j < i →
      ¬ (rescanLoop base (some j) urls i c p).2.2 = some PyExn.sqliteError := by
  intro urls
  induction urls with
  | nil => intro i c p hj; simp [rescanLoop]
  | cons url rest ih =>
    intro i c p hj
    simp only [rescanLoop]
    cases hparse : parse_metadata_from_path (removePfx base url) base with
    | error e =>
      intro hcon
      simp only at hcon
      injection hcon with he
      have := parse_error_eq_indexError hparse
      simp_all
    | ok o =>
      cases o with
      | none => exact ih (i + 1) c p (Nat.lt_succ_of_lt hj)
      | some meta0 =>
        have hne : ¬ ((some j : Option Nat) = some i) := by
          intro hh; injection hh with hh2; omega
        simp only [if_neg hne]
        by_cases hmod : i % 100 = 0
        · simp only [if_pos hmod]
          exact ih (i + 1) _ _ (Nat.lt_succ_of_lt hj)
        · simp only [if_neg hmod]
          exact ih (i + 1) _ _ (Nat.lt_succ_of_lt hj)

/-- A store error injected at an update with counter `≤ 100` fires before any
batch commit, so the rolled-back (committed) table is exactly the one passed
in. -/
theorem rescanLoop_rollback_first_batch (base : Str) (j : Nat) (hj : j ≤ 100) :
    ∀ (urls : List Str) (i : Nat) (c p : List Row),
      1 ≤ i → i ≤ j →
      (rescanLoop base (some j) urls i c p).2.2 = some PyExn.sqliteError →
      (rescanLoop base (some j) urls i c p).1 = c := by
  intro urls
  induction urls with
  | nil => intro i c p h1 h2 hcon; simp [rescanLoop] at hcon
  | cons url rest ih =>
    intro i c p h1 h2
    simp only [rescanLoop]
    cases hparse : parse_metadata_from_path (removePfx base url) base with
    | error e => intro _; rfl
    | ok o =>
      cases o with
      | none =>
        intro hcon
        by_cases hij : i = j
        · exact absurd hcon
            (rescanLoop_no_sqlite_after base j rest (i + 1) c p (by omega))
        · exact ih (i + 1) c p (by omega) (by omega) hcon
      | some meta0 =>
        by_cases herr : ((some j : Option Nat) = some i)
        · simp only [if_pos herr]
          first
            | exact fun _ => rfl
            | (intro _; trivial)
        · simp only [if_neg herr]
          have hij : ¬ i = j := fun hh => herr (by rw [hh])
          have hmod : ¬ i % 100 = 0 := by
            have hlt : i < 100 := by omega
            rw [Nat.mod_eq_of_lt hlt]
            omega
          simp only [if_neg hmod]
          exact ih (i + 1) c _ (by omega) (by omega)

/-- C1 (corrected): a store error raised during one of the first 100 record
updates — i.e. before the first batch commit — rolls the rescan back to
exactly the pre-rescan table.  (After a batch commit this fails: committed
batches persist, see the counterexample.) -/
theorem C1_rescan_rollback_first_batch (base : Str) (db : List Row) (j : Nat)
    (hj : j ≤ 100)
    (herr : (rescan_database base (some j) false db).2 = some PyExn.sqliteError) :
    (rescan_database base (some j) false db).1 = db := by
  unfold rescan_database at herr ⊢
  simp only [] at herr ⊢
  cases hexn : (rescanLoop base (some j) (db.map (fun r => r.url)) 1 db db).2.2 with
  | none =>
    rw [hexn] at herr
    simp at herr
  | some e =>
    rw [hexn] at herr
    simp only [] at herr ⊢
    have he : e = PyExn.sqliteError := by
      injection herr with hh
    subst he
    by_cases hj1 : 1 ≤ j
    · exact rescanLoop_rollback_first_batch base j hj _ 1 db db
        (Nat.le_refl 1) hj1 hexn
    · exact absurd hexn
        (rescanLoop_no_sqlite_after base j _ 1 db db (by omega))

/-- Witness for C1: a one-row store whose single update raises — the rescan
leaves the table untouched. -/
theorem C1_rescan_rollback_first_batch_witness :
    (rescan_database ("m/".data) (some 1) false [mkStale ("m/a/b/t1.zip".data)]).1 =
      [mkStale ("m/a/b/t1.zip".data)] :=
  C1_rescan_rollback_first_batch ("m/".data) [mkStale ("m/a/b/t1.zip".data)] 1
    (by decide) (by decide)

/-! ## C5: normalizer fixed points -/

/-- Splitting on a separator that does not occur yields the whole string. -/
theorem splitOnSepGo_no_occ (sep : Str) :
    ∀ (fuel : Nat) (acc s : Str), s.length < fuel → isSubstr sep s = false →
      splitOnSepGo sep fuel acc s = [acc.reverse ++ s] := by
  intro fuel
  induction fuel with
  | zero => intro acc s h _; exact absurd h (Nat.not_lt_zero _)
  | succ n ih =>
    intro acc s h hno
    cases s with
    | nil => simp [splitOnSepGo]
    | cons c rest =>
      simp only [splitOnSepGo]
      have hsub : isPrefixB sep (c :: rest) = false ∧ isSubstr sep rest = false := by
        have := hno
        simp only [isSubstr, Bool.or_eq_false_iff] at this
        exact this
      have hcond : ¬ (isPrefixB sep (c :: rest) = true ∧ sep ≠ []) := by
        intro hcc
        rw [hsub.1] at hcc
        exact Bool.false_ne_true hcc.1
      rw [if_neg hcond]
      rw [ih (c :: acc) rest (by simp only [List.length_cons] at h; omega) hsub.2]
      simp

/-- `splitOnSep` on a separator with no occurrence is the identity chunk. -/
theorem splitOnSep_no_occ (sep s : Str) (hno : isSubstr sep s = false) :
    splitOnSep sep s = [s] := by
  unfold splitOnSep
  rw [splitOnSepGo_no_occ sep (s.length + 1) [] s (Nat.lt_succ_self _) hno]
  simp

/-- Joining a single chunk is that chunk. -/
theorem joinWith_singleton (sep x : Str) : joinWith sep [x] = x := by
  simp [joinWith, List.intercalate]

/-- No adjacent case-insensitive duplicate words. -/
def noAdjDupB : List Str → Bool
  | [] => true
  | [_] => true
  | a :: b :: rest => !(pyLower a = pyLower b : Bool) && noAdjDupB (b :: rest)

/-- The duplicate-word collapse leaves a list without adjacent
case-insensitive duplicates unchanged (given the previous word also differs
from the head). -/
theorem collapseDup_of_chain :
    ∀ (ts : List Str) (prev : Option Str),
      noAdjDupB ts = true →
      (∀ w ∈ ts.head?, ¬ prev = some (pyLower w)) →
      collapseDupWords prev ts = ts := by
  intro ts
  induction ts with
  | nil => intro prev _ _; rfl
  | cons w ws ih =>
    intro prev hchain hhead
    simp only [collapseDupWords]
    have hne : ¬ prev = some (pyLower w) := hhead w (by simp)
    rw [if_neg hne]
    cases ws with
    | nil => rw [ih (some (pyLower w)) (by rfl) (by simp)]
    | cons w2 ws2 =>
      simp only [noAdjDupB, Bool.and_eq_true, Bool.not_eq_true',
        decide_eq_false_iff_not] at hchain
      rw [ih (some (pyLower w)) hchain.2 ?hh]
      case hh =>
        intro w' hw'
        simp only [List.head?_cons, Option.mem_def, Option.some.injEq] at hw'
        subst hw'
        intro hcon
        injection hcon with hcon2
        exact hchain.1 hcon2

/-- C5 (corrected): `normalize_platform_name` is a total pure function and it
fixes every already-normal string — one with no alias occurrence in its
lower-cased form, no `(`, no `" - "` separator, no surrounding whitespace,
single-space-joined tokens, no adjacent case-insensitive duplicate tokens, no
ignored tokens, and already in title case.  (Full idempotence fails, see the
counterexample.) -/
theorem C5_normalize_fixes_normal_strings (y : Str)
    (h1 : ∀ pr ∈ platform_aliases, isSubstr pr.1 (pyLower y) = false)
    (h2 : isSubstr (['(']) y = false)
    (h3 : isSubstr ([' ', '-', ' ']) y = false)
    (h4 : pyStripWs y = y)
    (h5 : joinWith ([' ']) (pySplitWs y) = y)
    (h6 : noAdjDupB (pySplitWs y) = true)
    (h7 : ∀ t ∈ pySplitWs y, ¬ pyLower t ∈ ignored_folders)
    (h8 : pyTitle y = y) :
    normalize_platform_name y = y := by
  unfold normalize_platform_name
  simp only []
  have hfind : platform_aliases.find? (fun p => isSubstr p.1 (pyLower y)) = none :=
    List.find?_eq_none.mpr (fun p hp => by rw [h1 p hp]; exact Bool.false_ne_true)
  rw [hfind]
  rw [splitOnSep_no_occ _ _ h2]
  simp only [List.headD_cons]
  rw [splitOnSep_no_occ _ _ h3]
  simp only [List.map_cons, List.map_nil]
  rw [h4, joinWith_singleton]
  rw [collapseDup_of_chain (pySplitWs y) none h6 (by intro w _; simp)]
  have hfilter : (pySplitWs y).filter (fun t => ¬ pyLower t ∈ ignored_folders) =
      pySplitWs y := by
    apply List.filter_eq_self.mpr
    intro t ht
    simpa using h7 t ht
  rw [hfilter, h5, h4, h8]

/-- Witness for C5: `"Sega Genesis"` is already normal and is fixed by the
normalizer. -/
theorem C5_normalize_fixes_normal_strings_witness :
    normalize_platform_name ("Sega Genesis".data) = ("Sega Genesis".data) :=
  C5_normalize_fixes_normal_strings ("Sega Genesis".data) (by decide) (by decide)
    (by decide) (by decide) (by decide) (by decide) (by decide) (by decide)

/-! ## C7: the size field is the listing text, copied verbatim -/

/-- Every row present after the entry loop either was already stored or
carries `size`/`last_modified` verbatim from one of the listing entries. -/
theorem processEntries_size_verbatim (sqliteOk : Str → Bool)
    (base_url folder : Str) :
    ∀ (entries : List Entry) (folders : List Str) (db : List Row)
      (fs : List Str) (db' : List Row),
      processEntries sqliteOk base_url folder entries folders db =
        .ok (fs, db') →
      ∀ r ∈ db', r ∈ db ∨
        ∃ e ∈ entries, r.size = e.size ∧ r.last_modified = e.last_modified := by
  intro entries
  induction entries with
  | nil =>
    intro folders db fs db' h r hr
    simp only [processEntries, Except.ok.injEq, Prod.mk.injEq] at h
    exact Or.inl (h.2 ▸ hr)
  | cons e rest ih =>
    intro folders db fs db' h r hr
    simp only [processEntries] at h
    split at h
    · rcases ih _ _ _ _ h r hr with h1 | ⟨e', he', hsz⟩
      · exact Or.inl h1
      · exact Or.inr ⟨e', List.mem_cons_of_mem _ he', hsz⟩
    · split at h
      · rcases ih _ _ _ _ h r hr with h1 | ⟨e', he', hsz⟩
        · exact Or.inl h1
        · exact Or.inr ⟨e', List.mem_cons_of_mem _ he', hsz⟩
      · split at h
        · exact absurd h (by simp)
        · rcases ih _ _ _ _ h r hr with h1 | ⟨e', he', hsz⟩
          · exact Or.inl h1
          · exact Or.inr ⟨e', List.mem_cons_of_mem _ he', hsz⟩
        · rcases ih _ _ _ _ h r hr with h1 | ⟨e', he', hsz⟩
          · revert h1
            split
            · intro h1
              rcases List.mem_append.mp h1 with hmem | hmem
              · exact Or.inl (List.mem_filter.mp hmem).1
              · have hre : r = _ := List.mem_singleton.mp hmem
                subst hre
                exact Or.inr ⟨e, List.mem_cons_self e rest, rfl, rfl⟩
            · intro h1
              exact Or.inl h1
          · exact Or.inr ⟨e', List.mem_cons_of_mem _ he', hsz⟩

/-- C7 (corrected): for every fetch oracle, store-write oracle, folder and
pre-existing store, every record the crawl writes for a listing carries the
listing entry's `size` cell verbatim (and its `last_modified`); the size is
not converted to integer bytes (see the counterexample). -/
theorem C7_size_copied_verbatim (fetch : Str → Except FetchErr (List Entry))
    (sqliteOk : Str → Bool) (base_url folder : Str) (db : List Row)
    (entries : List Entry) (fs : List Str) (db' : List Row)
    (hfe : fetch (folderUrlOf base_url folder) = .ok entries)
    (hpf : processFolder fetch sqliteOk base_url folder db = .ok (fs, db')) :
    ∀ r ∈ db', r ∈ db ∨
      ∃ e ∈ entries, r.size = e.size ∧ r.last_modified = e.last_modified := by
  unfold processFolder at hpf
  rw [hfe] at hpf
  exact processEntries_size_verbatim sqliteOk base_url folder entries [] db fs
    db' hpf

/-- Witness for C7: the row written for the `fetchSized` listing carries the
`"14.3 MiB"` size cell verbatim. -/
theorem C7_size_copied_verbatim_witness :
    sizedRow ∈ ([] : List Row) ∨
      ∃ e ∈ [sizedEntry],
        sizedRow.size = e.size ∧ sizedRow.last_modified = e.last_modified :=
  C7_size_copied_verbatim fetchSized (fun _ => true) ("m/".data)
    ("Coll/Plat/".data) [] [sizedEntry] [] [sizedRow] (by decide) (by decide)
    sizedRow (by decide)

/-! ## C10: cancellation cleanup -/

/-- A worker that starts a job strictly after the flag-setting job processes
nothing. -/
theorem runWorker_stops_after_flag (jc k j : Nat) (uo : Bool)
    (jobs : List Job) (hj : jc < j) :
    runWorker (some (jc, k)) uo j jobs = [] := by
  cases jobs with
  | nil => rfl
  | cons job rest =>
    simp only [runWorker]
    rw [if_pos (by simpa using hj)]

/-- A worker processes at most the jobs up to and including the
flag-setting one. -/
theorem runWorker_length_le (jc k : Nat) (uo : Bool) :
    ∀ (jobs : List Job) (j : Nat), j ≤ jc →
      (runWorker (some (jc, k)) uo j jobs).length ≤ jc + 1 - j := by
  intro jobs
  induction jobs with
  | nil => intro j _; simp [runWorker]
  | cons job rest ih =>
    intro j hj
    simp only [runWorker]
    split
    · simp
    · simp only [List.length_cons]
      by_cases hjc : j = jc
      · subst hjc
        rw [runWorker_stops_after_flag j k (j + 1) uo rest (Nat.lt_succ_self j)]
        simp
      · have := ih (j + 1) (by omega)
        omega

/-- C10 (corrected): when the shared cancel flag is set mid-transfer and the
partial-file unlink succeeds, the cancelled transfer finishes unfinished with
no file left on disk (the code writes straight to the final name and never
creates a `*.incomplete` file, so no such file can remain either); a worker
observing the flag starts none of the remaining queued jobs, processing at
most the jobs up to the cancelled one; and `cancel_all` drains the job queue
and terminates every recorded subprocess.  (When the unlink raises, the
partial file survives — see the counterexample.) -/
theorem C10_cancel_cleanup :
    (∀ (k : Nat) (lines : List Str) (idx : Nat) (url : Str),
      k ≤ lines.length →
      (download_file (some k) true idx url lines).fileRemains = false ∧
      (download_file (some k) true idx url lines).finished = false) ∧
    (∀ (jc k j : Nat) (uo : Bool) (jobs : List Job), jc < j →
      runWorker (some (jc, k)) uo j jobs = []) ∧
    (∀ (jc k : Nat) (uo : Bool) (jobs : List Job),
      (runWorker (some (jc, k)) uo 0 jobs).length ≤ jc + 1) ∧
    (∀ s : DownloaderState,
      (cancel_all s).queue = [] ∧
      ∀ b ∈ (cancel_all s).procTerminated, b = true) := by
  refine ⟨?_, ?_, ?_, ?_⟩
  · intro k lines idx url hk
    unfold download_file
    have hflag : flagAt (some k) lines.length = true := by
      simp [flagAt, hk]
    rw [hflag]
    simp
  · intro jc k j uo jobs hj
    exact runWorker_stops_after_flag jc k j uo jobs hj
  · intro jc k uo jobs
    have := runWorker_length_le jc k uo jobs 0 (Nat.zero_le jc)
    omega
  · intro s
    refine ⟨rfl, ?_⟩
    intro b hb
    rcases List.mem_map.mp hb with ⟨_, _, rfl⟩
    rfl

/-- Witness for C10: a one-line transfer cancelled before its first progress
line — the file is removed, the transfer is not marked finished, a worker
past the cancel index starts nothing, and `cancel_all` empties a one-job
queue. -/
theorem C10_cancel_cleanup_witness :
    (download_file (some 0) true 0 ("u".data) [("x".data)]).fileRemains = false ∧
    runWorker (some (0, 0)) true 1 [⟨"u".data, []⟩] = [] ∧
    (cancel_all ⟨[("u".data)], [false]⟩).queue = [] :=
  ⟨(C10_cancel_cleanup.1 0 [("x".data)] 0 ("u".data) (by decide)).1,
    C10_cancel_cleanup.2.1 0 0 1 true [⟨"u".data, []⟩] (by decide),
    (C10_cancel_cleanup.2.2.2 ⟨[("u".data)], [false]⟩).1⟩

end Myrient
